import Mathlib

/-!
# Formal model of the 8pay token valuation notebook

Shallow embedding of `src/8pay_valuation_model.ipynb` over the reals.
The notebook defines a logistic adoption curve, numerically integrates it
over discrete staking periods (`scipy.integrate.quad`, embedded here as the
exact interval integral), discounts each period's cash flow, and reports a
pre-horizon sum plus a closed-form geometric tail, each rounded to the
nearest thousand with numpy's round-half-to-even convention.
-/

open MeasureTheory

namespace EightPay

/-- Source: `logistic = lambda t, mid, slope, limit: limit/(1+numpy.exp(-slope*(t-mid)))`. -/
noncomputable def logistic (t mid slope limit : ℝ) : ℝ :=
  limit / (1 + Real.exp (-slope * (t - mid)))

/-- Source: `average = lambda func, interval: integrate.quad(func, interval[0], interval[1])[0]`.
`scipy.integrate.quad` computes the definite integral over the interval; we embed it
as the exact interval integral. -/
noncomputable def average (func : ℝ → ℝ) (interval : ℝ × ℝ) : ℝ :=
  ∫ t in interval.1..interval.2, func t

/-- The eight scalar parameters of `valuation`, in the source's positional order. -/
structure Params where
  timeHorizon : ℕ
  periodsPerYear : ℕ
  discountRate : ℝ
  stakerFee : ℝ
  mid : ℝ
  slope : ℝ
  limit : ℝ
  avgTransactionValue : ℝ

/-- Source line: `discountRate = numpy.power(1+discountRate/100, 1/periodsPerYear)`
(the per-period effective discount rate, shadowing the annual-rate parameter). -/
noncomputable def effectiveRate (discountRate : ℝ) (periodsPerYear : ℕ) : ℝ :=
  (1 + discountRate / 100) ^ ((1 : ℝ) / (periodsPerYear : ℝ))

/-- Source: `transactionCount = lambda t: logistic(t, mid, slope, limit)`. -/
noncomputable def transactionCount (P : Params) : ℝ → ℝ :=
  fun t => logistic t P.mid P.slope P.limit

/-- Source: `transactionValue = lambda t: avgTransactionValue` (constant for now). -/
def transactionValue (P : Params) : ℝ → ℝ :=
  fun _ => P.avgTransactionValue

/-- Source loop: `periodStartEnd = [i/periodsPerYear, (i+1)/periodsPerYear]`
(`i` is the 0-based loop index). -/
noncomputable def periodStartEnd (P : Params) (i : ℕ) : ℝ × ℝ :=
  ((i : ℝ) / (P.periodsPerYear : ℝ), ((i : ℝ) + 1) / (P.periodsPerYear : ℝ))

/-- Number of loop iterations / array length: `periodsPerYear*timeHorizon`. -/
def numPeriods (P : Params) : ℕ :=
  P.periodsPerYear * P.timeHorizon

/-- Source: `periodTransactionCount[i] = average(transactionCount, periodStartEnd)`. -/
noncomputable def periodTransactionCount (P : Params) (i : ℕ) : ℝ :=
  average (transactionCount P) (periodStartEnd P i)

/-- Source: `periodTransactionVolume[i] = average(lambda t: transactionCount(t)*transactionValue(t), periodStartEnd)`. -/
noncomputable def periodTransactionVolume (P : Params) (i : ℕ) : ℝ :=
  average (fun t => transactionCount P t * transactionValue P t) (periodStartEnd P i)

/-- Source: `periodCashflow[i] = periodTransactionVolume[i]*stakerFee` where
`stakerFee = stakerFee/100` was rescaled at the top of `valuation`. -/
noncomputable def periodCashflow (P : Params) (i : ℕ) : ℝ :=
  periodTransactionVolume P i * (P.stakerFee / 100)

/-- Source: `periodDiscounted[i] = periodCashflow[i]/numpy.power(discountRate,i+1)`. -/
noncomputable def periodDiscounted (P : Params) (i : ℕ) : ℝ :=
  periodCashflow P i / effectiveRate P.discountRate P.periodsPerYear ^ (i + 1)

/-- Exact value of `numpy.sum(periodDiscounted)` before rounding. -/
noncomputable def summedDiscountedExact (P : Params) : ℝ :=
  ∑ i ∈ Finset.range (numPeriods P), periodDiscounted P i

/-- Embeds `numpy.round`: round to the nearest integer, ties to the even integer. -/
noncomputable def roundHalfEven (x : ℝ) : ℤ :=
  if x - Int.floor x < 1 / 2 then Int.floor x
  else if (1 : ℝ) / 2 < x - Int.floor x then Int.floor x + 1
  else if Even (Int.floor x) then Int.floor x else Int.floor x + 1

/-- Source: `summedDiscounted = int(numpy.round(numpy.sum(periodDiscounted)/1000))*1000`. -/
noncomputable def summedDiscounted (P : Params) : ℤ :=
  roundHalfEven (summedDiscountedExact P / 1000) * 1000

/-- The value of
`int(numpy.round(periodDiscounted[-1]/((discountRate-1)*1000)))*1000`
when the array is nonempty (`periodDiscounted[-1]` is entry `numPeriods - 1`). -/
noncomputable def horizonValue (P : Params) : ℤ :=
  roundHalfEven (periodDiscounted P (numPeriods P - 1) /
    ((effectiveRate P.discountRate P.periodsPerYear - 1) * 1000)) * 1000

/-- Embeds the line
`summedDiscounted = int(numpy.round(numpy.sum(periodDiscounted)/1000))*1000`
with its float failure modes. With a nonempty array and a negative power base
(discountRate < -100) together with a fractional exponent (periodsPerYear ≥ 2),
the effective rate is NaN, so every entry and the sum are NaN and `int` raises
`ValueError`. With a zero power base (discountRate = -100) the effective rate is
0 and every entry is ±inf or nan from division by zero: the sum is ±inf
(`OverflowError` at `int`) when all cash flows share one nonzero sign, and nan
(`ValueError`) otherwise. In every other case — including a negative base with
`periodsPerYear = 1`, where `numpy.power` returns the signed real value — the
sum is an ordinary real and the line returns its rounded value. -/
noncomputable def summedDiscountedChecked (P : Params) : Except String ℤ :=
  if 1 ≤ numPeriods P ∧ 1 + P.discountRate / 100 < 0 ∧ 2 ≤ P.periodsPerYear then
    Except.error "ValueError"
  else if 1 ≤ numPeriods P ∧ 1 + P.discountRate / 100 = 0 then
    if (∀ i ∈ Finset.range (numPeriods P), 0 < periodCashflow P i) ∨
        (∀ i ∈ Finset.range (numPeriods P), periodCashflow P i < 0) then
      Except.error "OverflowError"
    else Except.error "ValueError"
  else Except.ok (summedDiscounted P)

/-- Embeds the line
`discountedHorizon = int(numpy.round(periodDiscounted[-1]/((discountRate-1)*1000)))*1000`,
reached when `periodsPerYear ≥ 1` and the preceding sum line returned normally
(which confines the effective rate to an ordinary real). With an empty array
`periodDiscounted[-1]` raises `IndexError`. With effective rate exactly 1
(discountRate = 0) the float division by `(1-1)*1000 = 0.0` makes the value ±inf
(`OverflowError` at `int`) when the last discounted flow is nonzero, and nan
(`ValueError`) when it is zero. Otherwise the line returns the rounded tail. -/
noncomputable def discountedHorizon (P : Params) : Except String ℤ :=
  if numPeriods P = 0 then Except.error "IndexError"
  else if effectiveRate P.discountRate P.periodsPerYear = 1 then
    if periodDiscounted P (numPeriods P - 1) = 0 then Except.error "ValueError"
    else Except.error "OverflowError"
  else Except.ok (horizonValue P)

/-- Exact (unrounded) closed-form tail `periodDiscounted[-1]/(effectiveRate - 1)`,
the quantity the source rounds to obtain `discountedHorizon`. -/
noncomputable def tailExact (P : Params) : ℝ :=
  periodDiscounted P (numPeriods P - 1) /
    (effectiveRate P.discountRate P.periodsPerYear - 1)

/-- The tail formula asserted by the spec's §4.3 derivation,
`periodDiscounted[hp] / (effectiveRate × (effectiveRate − 1))`, stated here
verbatim from the spec's words for comparison against the source's formula. -/
noncomputable def tailSpecClaim (P : Params) : ℝ :=
  periodDiscounted P (numPeriods P - 1) /
    (effectiveRate P.discountRate P.periodsPerYear *
      (effectiveRate P.discountRate P.periodsPerYear - 1))

/-- The observable output of one `valuation` run: the plotted series
(time axis, transaction counts, nominal and discounted cashflows) and the
three printed aggregates. -/
structure ValOutput where
  timeAxis : List ℝ
  transactionCountSeries : List ℝ
  cashflowSeries : List ℝ
  discountedSeries : List ℝ
  preHorizonValue : ℤ
  postHorizonValue : ℤ
  totalValue : ℤ

/-- The observable behavior of `valuation`: everything it plots and prints, or
the exception aborting the run, in source statement order. `periodsPerYear = 0`
raises `ZeroDivisionError` at `1/periodsPerYear` on the first line, before any
array exists. Afterwards the sum line and then the tail line may raise as
described on `summedDiscountedChecked` and `discountedHorizon` (in particular
`timeHorizon = 0` with `periodsPerYear ≥ 1` dies with `IndexError` at
`periodDiscounted[-1]`). No parameter is validated anywhere, and no error
message mentions an invalid parameter. -/
noncomputable def valuation (P : Params) : Except String ValOutput :=
  if P.periodsPerYear = 0 then Except.error "ZeroDivisionError"
  else
    match summedDiscountedChecked P with
    | Except.error e => Except.error e
    | Except.ok s =>
        match discountedHorizon P with
        | Except.error e => Except.error e
        | Except.ok tail =>
            Except.ok
              { timeAxis := (List.range (numPeriods P)).map
                  (fun i => (i : ℝ) / (P.periodsPerYear : ℝ))
                transactionCountSeries := (List.range (numPeriods P)).map
                  (periodTransactionCount P)
                cashflowSeries := (List.range (numPeriods P)).map (periodCashflow P)
                discountedSeries := (List.range (numPeriods P)).map
                  (periodDiscounted P)
                preHorizonValue := s
                postHorizonValue := tail
                totalValue := s + tail }

/-- The Python return value of `valuation`: the source function body ends with
`print` calls and has no `return` statement, so the call evaluates to `None`.
The type parameter records the tuple shape the spec claims is returned. -/
def valuationReturnValue (_P : Params) : Option (ℤ × ℤ × ℤ × List ℝ) :=
  none

/-- Tests whether a `valuation` run completed without raising. -/
def succeeds (e : Except String ValOutput) : Bool :=
  match e with
  | Except.ok _ => true
  | Except.error _ => false

/-! ## Helper lemmas -/

lemma logistic_of_slope_zero (t mid limit : ℝ) : logistic t mid 0 limit = limit / 2 := by
  unfold logistic
  norm_num

lemma logistic_continuous (mid slope limit : ℝ) :
    Continuous (fun t => logistic t mid slope limit) := by
  unfold logistic
  apply Continuous.div continuous_const
  · continuity
  · intro x
    positivity

lemma logistic_nonneg (t mid slope limit : ℝ) (hl : 0 ≤ limit) :
    0 ≤ logistic t mid slope limit := by
  unfold logistic
  positivity

lemma logistic_pos (t mid slope limit : ℝ) (hl : 0 < limit) :
    0 < logistic t mid slope limit := by
  unfold logistic
  positivity

lemma average_const (c a b : ℝ) : average (fun _ => c) (a, b) = (b - a) * c := by
  unfold average
  simp [smul_eq_mul]

lemma effectiveRate_100_1 : effectiveRate 100 1 = 2 := by
  unfold effectiveRate
  norm_num

lemma effectiveRate_pos (r : ℝ) (p : ℕ) (hr : -100 < r) :
    0 < effectiveRate r p :=
  Real.rpow_pos_of_pos (by linarith) _

lemma one_lt_effectiveRate (r : ℝ) (p : ℕ) (hr : 0 < r) (hp : 1 ≤ p) :
    1 < effectiveRate r p := by
  unfold effectiveRate
  have hb : (1:ℝ) < 1 + r / 100 := by linarith
  have hz : (0:ℝ) < 1 / (p : ℝ) := by
    have : (0:ℝ) < (p : ℝ) := by exact_mod_cast Nat.lt_of_lt_of_le Nat.zero_lt_one hp
    positivity
  exact Real.one_lt_rpow_iff_of_pos (by linarith) |>.mpr (Or.inl ⟨hb, hz⟩)

lemma roundHalfEven_of_floor_lt (x : ℝ) (n : ℤ) (h1 : Int.floor x = n)
    (h2 : x - (n : ℝ) < 1 / 2) : roundHalfEven x = n := by
  unfold roundHalfEven
  rw [h1, if_pos h2]

lemma roundHalfEven_of_floor_gt (x : ℝ) (n : ℤ) (h1 : Int.floor x = n)
    (h2 : (1 : ℝ) / 2 < x - (n : ℝ)) : roundHalfEven x = n + 1 := by
  unfold roundHalfEven
  rw [h1, if_neg (by linarith), if_pos h2]

lemma roundHalfEven_intCast (n : ℤ) : roundHalfEven (n : ℝ) = n := by
  apply roundHalfEven_of_floor_lt _ n
  · exact Int.floor_intCast n
  · norm_num

lemma roundHalfEven_zero : roundHalfEven 0 = 0 := by
  have := roundHalfEven_intCast 0
  simpa using this

lemma abs_roundHalfEven_sub (x : ℝ) : |(roundHalfEven x : ℝ) - x| ≤ 1 / 2 := by
  have hfl : (Int.floor x : ℝ) ≤ x := Int.floor_le x
  have hfu : x < (Int.floor x : ℝ) + 1 := Int.lt_floor_add_one x
  unfold roundHalfEven
  by_cases h1 : x - (Int.floor x : ℝ) < 1 / 2
  · rw [if_pos h1, abs_le]
    constructor <;> linarith
  · rw [if_neg h1]
    by_cases h2 : (1 : ℝ) / 2 < x - (Int.floor x : ℝ)
    · rw [if_pos h2]
      push_cast
      rw [abs_le]
      constructor <;> linarith
    · rw [if_neg h2]
      by_cases h3 : Even (Int.floor x)
      · rw [if_pos h3, abs_le]
        constructor <;> linarith
      · rw [if_neg h3]
        push_cast
        rw [abs_le]
        constructor <;> linarith

lemma roundHalfEven_nonneg (x : ℝ) (hx : 0 ≤ x) : 0 ≤ roundHalfEven x := by
  have hfl : (0 : ℤ) ≤ Int.floor x := Int.floor_nonneg.mpr hx
  unfold roundHalfEven
  by_cases h1 : x - (Int.floor x : ℝ) < 1 / 2
  · rw [if_pos h1]
    exact hfl
  · rw [if_neg h1]
    by_cases h2 : (1 : ℝ) / 2 < x - (Int.floor x : ℝ)
    · rw [if_pos h2]
      omega
    · rw [if_neg h2]
      by_cases h3 : Even (Int.floor x)
      · rw [if_pos h3]
        exact hfl
      · rw [if_neg h3]
        omega

/-! ### Closed-form evaluation at the degenerate configuration
`timeHorizon = periodsPerYear = 1`, `discountRate = 100`, `slope = 0`:
the integrand is constant, the effective rate is exactly 2, and every
quantity of the model has a rational closed form. -/

lemma periodTransactionCount_eval (f mid limit v : ℝ) :
    periodTransactionCount ⟨1, 1, 100, f, mid, 0, limit, v⟩ 0 = limit / 2 := by
  unfold periodTransactionCount transactionCount periodStartEnd
  have h : (fun t => logistic t mid 0 limit) = fun _ : ℝ => limit / 2 := by
    funext t
    exact logistic_of_slope_zero t mid limit
  rw [h, average_const]
  norm_num

lemma periodTransactionVolume_eval (f mid limit v : ℝ) :
    periodTransactionVolume ⟨1, 1, 100, f, mid, 0, limit, v⟩ 0 = limit / 2 * v := by
  unfold periodTransactionVolume transactionCount transactionValue periodStartEnd
  have h : (fun t => logistic t mid 0 limit * v) = fun _ : ℝ => limit / 2 * v := by
    funext t
    rw [logistic_of_slope_zero t mid limit]
  rw [h, average_const]
  norm_num

lemma periodCashflow_eval (f mid limit v : ℝ) :
    periodCashflow ⟨1, 1, 100, f, mid, 0, limit, v⟩ 0 = limit / 2 * v * (f / 100) := by
  unfold periodCashflow
  rw [periodTransactionVolume_eval]

lemma periodDiscounted_eval (f mid limit v : ℝ) :
    periodDiscounted ⟨1, 1, 100, f, mid, 0, limit, v⟩ 0
      = limit / 2 * v * (f / 100) / 2 := by
  unfold periodDiscounted
  rw [periodCashflow_eval]
  have h : effectiveRate (Params.discountRate ⟨1, 1, 100, f, mid, 0, limit, v⟩)
      (Params.periodsPerYear ⟨1, 1, 100, f, mid, 0, limit, v⟩) = 2 := effectiveRate_100_1
  rw [h]
  norm_num

lemma summedDiscountedExact_eval (f mid limit v : ℝ) :
    summedDiscountedExact ⟨1, 1, 100, f, mid, 0, limit, v⟩
      = limit / 2 * v * (f / 100) / 2 := by
  unfold summedDiscountedExact
  rw [show numPeriods ⟨1, 1, 100, f, mid, 0, limit, v⟩ = 1 from rfl,
    Finset.sum_range_one, periodDiscounted_eval]

lemma horizonValue_eval (f mid limit v : ℝ) :
    horizonValue ⟨1, 1, 100, f, mid, 0, limit, v⟩
      = roundHalfEven (limit / 2 * v * (f / 100) / 2 / 1000) * 1000 := by
  unfold horizonValue
  have h : effectiveRate (Params.discountRate ⟨1, 1, 100, f, mid, 0, limit, v⟩)
      (Params.periodsPerYear ⟨1, 1, 100, f, mid, 0, limit, v⟩) = 2 := effectiveRate_100_1
  rw [show numPeriods ⟨1, 1, 100, f, mid, 0, limit, v⟩ - 1 = 0 from rfl,
    periodDiscounted_eval, h]
  norm_num

lemma tsum_div_pow_geometric (pd d : ℝ) (hd : 1 < d) :
    tsum (fun k : ℕ => pd / d ^ (k + 1)) = pd / (d - 1) := by
  have hd0 : (0 : ℝ) < d := lt_trans one_pos hd
  have hdne : d ≠ 0 := ne_of_gt hd0
  have hd1 : d - 1 ≠ 0 := sub_ne_zero.mpr (ne_of_gt hd)
  have hinv : d⁻¹ < 1 := inv_lt_one_of_one_lt₀ hd
  have hinv0 : (0 : ℝ) ≤ d⁻¹ := le_of_lt (inv_pos.mpr hd0)
  have h3 : (1 : ℝ) - d⁻¹ ≠ 0 := sub_ne_zero.mpr (by linarith)
  have h1 : ∀ k : ℕ, pd / d ^ (k + 1) = (pd * d⁻¹) * (d⁻¹) ^ k := by
    intro k
    rw [div_eq_mul_inv, ← inv_pow, pow_succ]
    ring
  rw [tsum_congr h1, tsum_mul_left, tsum_geometric_of_lt_one hinv0 hinv]
  field_simp

lemma tailExact_eval (f mid limit v : ℝ) :
    tailExact ⟨1, 1, 100, f, mid, 0, limit, v⟩ = limit / 2 * v * (f / 100) / 2 := by
  unfold tailExact
  have h : effectiveRate (Params.discountRate ⟨1, 1, 100, f, mid, 0, limit, v⟩)
      (Params.periodsPerYear ⟨1, 1, 100, f, mid, 0, limit, v⟩) = 2 := effectiveRate_100_1
  rw [show numPeriods ⟨1, 1, 100, f, mid, 0, limit, v⟩ - 1 = 0 from rfl,
    periodDiscounted_eval, h]
  norm_num

lemma summedDiscountedExact_limit_zero (h p : ℕ) (r f mid slope v : ℝ) :
    summedDiscountedExact ⟨h, p, r, f, mid, slope, 0, v⟩ = 0 := by
  unfold summedDiscountedExact
  apply Finset.sum_eq_zero
  intro i _
  unfold periodDiscounted periodCashflow periodTransactionVolume transactionCount
    transactionValue average logistic
  simp

lemma periodCashflow_pos (h p : ℕ) (hp : 1 ≤ p) (r f mid slope limit v : ℝ)
    (hf : 0 < f) (hl : 0 < limit) (hv : 0 < v) (i : ℕ) :
    0 < periodCashflow ⟨h, p, r, f, mid, slope, limit, v⟩ i := by
  have hp0 : (0 : ℝ) < (p : ℝ) := by
    exact_mod_cast Nat.lt_of_lt_of_le Nat.zero_lt_one hp
  unfold periodCashflow
  apply mul_pos ?_ (by positivity)
  unfold periodTransactionVolume transactionCount transactionValue average
    periodStartEnd
  apply intervalIntegral.intervalIntegral_pos_of_pos_on
  · exact ((logistic_continuous mid slope limit).mul
      continuous_const).intervalIntegrable _ _
  · intro x _
    exact mul_pos (logistic_pos x mid slope limit hl) hv
  · rw [div_lt_div_iff_of_pos_right hp0]
    linarith

lemma effectiveRate_strict_mono (p : ℕ) (hp : 1 ≤ p) (r1 r2 : ℝ)
    (h1 : -100 < r1) (h12 : r1 < r2) :
    effectiveRate r1 p < effectiveRate r2 p := by
  unfold effectiveRate
  have hp0 : (0 : ℝ) < (p : ℝ) := by
    exact_mod_cast Nat.lt_of_lt_of_le Nat.zero_lt_one hp
  exact Real.rpow_lt_rpow (by linarith) (by linarith) (by positivity)

lemma abs_round_thousand_sub (x : ℝ) :
    |((roundHalfEven (x / 1000) * 1000 : ℤ) : ℝ) - x| ≤ 500 := by
  have h := abs_roundHalfEven_sub (x / 1000)
  have heq : ((roundHalfEven (x / 1000) * 1000 : ℤ) : ℝ) - x =
      ((roundHalfEven (x / 1000) : ℝ) - x / 1000) * 1000 := by
    push_cast
    ring
  rw [heq, abs_mul, abs_of_pos (show (0 : ℝ) < 1000 by norm_num)]
  nlinarith [h]

lemma horizonValue_eq_round_tailExact (P : Params) :
    horizonValue P = roundHalfEven (tailExact P / 1000) * 1000 := by
  unfold horizonValue tailExact
  rw [div_div]

lemma summedDiscountedChecked_ok (P : Params)
    (hb : 0 < 1 + P.discountRate / 100) :
    summedDiscountedChecked P = Except.ok (summedDiscounted P) := by
  have h1 : ¬(1 ≤ numPeriods P ∧ 1 + P.discountRate / 100 < 0 ∧
      2 ≤ P.periodsPerYear) := by
    rintro ⟨-, hlt, -⟩
    linarith
  have h2 : ¬(1 ≤ numPeriods P ∧ 1 + P.discountRate / 100 = 0) := by
    rintro ⟨-, heq⟩
    linarith
  unfold summedDiscountedChecked
  rw [if_neg h1, if_neg h2]

lemma discountedHorizon_ok (P : Params) (hn : numPeriods P ≠ 0)
    (hd : effectiveRate P.discountRate P.periodsPerYear ≠ 1) :
    discountedHorizon P = Except.ok (horizonValue P) := by
  unfold discountedHorizon
  rw [if_neg hn, if_neg hd]

lemma valuation_ok (P : Params) (hn : 1 ≤ numPeriods P)
    (hr : 0 < P.discountRate) :
    valuation P = Except.ok
      { timeAxis := (List.range (numPeriods P)).map
          (fun i => (i : ℝ) / (P.periodsPerYear : ℝ))
        transactionCountSeries := (List.range (numPeriods P)).map
          (periodTransactionCount P)
        cashflowSeries := (List.range (numPeriods P)).map (periodCashflow P)
        discountedSeries := (List.range (numPeriods P)).map (periodDiscounted P)
        preHorizonValue := summedDiscounted P
        postHorizonValue := horizonValue P
        totalValue := summedDiscounted P + horizonValue P } := by
  have hp : ¬P.periodsPerYear = 0 := by
    intro h0
    unfold numPeriods at hn
    rw [h0] at hn
    simp at hn
  have hd1 : 1 < effectiveRate P.discountRate P.periodsPerYear :=
    one_lt_effectiveRate _ _ hr (Nat.one_le_iff_ne_zero.mpr hp)
  unfold valuation
  rw [if_neg hp, summedDiscountedChecked_ok P (by linarith),
    discountedHorizon_ok P (by omega) (ne_of_gt hd1)]

/-! ## Claims -/

/-- C1 (counterexample): at timeHorizon = 1, periodsPerYear = 1, discountRate = 100,
stakerFee = 50, slope = 0, limit = 1600000, avgTransactionValue = 10, the effective
rate is 2, the last discounted cash flow is 2,000,000, and the source computes the
post-horizon tail as 2,000,000 (division by d−1 = 1), while the formula asserted by
the claim, periodDiscounted[hp]/(d×(d−1)), gives 1,000,000. -/
theorem tail_divisor_counterexample :
    discountedHorizon ⟨1, 1, 100, 50, 5, 0, 1600000, 10⟩ = Except.ok 2000000 ∧
    tailSpecClaim ⟨1, 1, 100, 50, 5, 0, 1600000, 10⟩ = 1000000 ∧
    ((2000000 : ℝ) ≠ (1000000 : ℝ)) := by
  refine ⟨?_, ?_, by norm_num⟩
  · have hd2 : effectiveRate
        (Params.discountRate ⟨1, 1, 100, 50, 5, 0, 1600000, 10⟩)
        (Params.periodsPerYear ⟨1, 1, 100, 50, 5, 0, 1600000, 10⟩) = 2 :=
      effectiveRate_100_1
    rw [discountedHorizon_ok ⟨1, 1, 100, 50, 5, 0, 1600000, 10⟩ (by decide)
        (by rw [hd2]; norm_num),
      horizonValue_eval]
    rw [show ((1600000 : ℝ) / 2 * 10 * (50 / 100) / 2 / 1000) = ((2000 : ℤ) : ℝ)
        by norm_num, roundHalfEven_intCast]
    norm_num
  · unfold tailSpecClaim
    have h : effectiveRate (Params.discountRate ⟨1, 1, 100, 50, 5, 0, 1600000, 10⟩)
        (Params.periodsPerYear ⟨1, 1, 100, 50, 5, 0, 1600000, 10⟩) = 2 :=
      effectiveRate_100_1
    rw [show numPeriods ⟨1, 1, 100, 50, 5, 0, 1600000, 10⟩ - 1 = 0 from rfl,
      periodDiscounted_eval, h]
    norm_num

/-- C1 (amended): for every valid parameter set (timeHorizon ≥ 1, periodsPerYear ≥ 1,
annualDiscountRate > 0) the discounted post-horizon geometric series sums to
periodDiscounted[hp] divided by (effectiveRate − 1) — not by
effectiveRate × (effectiveRate − 1) — and the tail reported by valuation is exactly
that quantity rounded to the nearest thousand. -/
theorem tail_geometric_closed_form (P : Params) (hh : 1 ≤ P.timeHorizon)
    (hp : 1 ≤ P.periodsPerYear) (hr : 0 < P.discountRate) :
    tsum (fun k : ℕ => periodDiscounted P (numPeriods P - 1) /
        effectiveRate P.discountRate P.periodsPerYear ^ (k + 1)) = tailExact P ∧
    discountedHorizon P = Except.ok (roundHalfEven (tailExact P / 1000) * 1000) := by
  have hd : 1 < effectiveRate P.discountRate P.periodsPerYear :=
    one_lt_effectiveRate _ _ hr hp
  constructor
  · exact tsum_div_pow_geometric _ _ hd
  · rw [discountedHorizon_ok P (by unfold numPeriods; positivity) (ne_of_gt hd),
      horizonValue_eq_round_tailExact]

/-- Witness for C1's amended theorem at a concrete valid parameter set. -/
theorem tail_geometric_closed_form_witness :
    discountedHorizon ⟨1, 1, 100, 50, 5, 0, 1600000, 10⟩ =
      Except.ok (roundHalfEven (tailExact ⟨1, 1, 100, 50, 5, 0, 1600000, 10⟩ / 1000)
        * 1000) :=
  (tail_geometric_closed_form ⟨1, 1, 100, 50, 5, 0, 1600000, 10⟩
    (by norm_num) (by norm_num) (by norm_num)).2

/-- C7: for slope = 0 the logistic function is constant at `limit/2` for every `t`,
`mid` and `limit`, and the denominator `1 + exp(-slope*(t-mid))` is strictly
positive for all arguments, so its evaluation never divides by zero. -/
theorem logistic_slope_zero_and_denom_pos :
    (∀ t mid limit : ℝ, logistic t mid 0 limit = limit / 2) ∧
    (∀ t mid slope : ℝ, 0 < 1 + Real.exp (-slope * (t - mid))) := by
  refine ⟨logistic_of_slope_zero, fun t mid slope => ?_⟩
  positivity

/-- C4: for every parameter set and every 1-indexed period `i` in range, the
discounted cash flow of period `i` is the period cash flow divided by
`effectiveRate ^ i`; in particular period 1 is already divided by one full
factor of the effective rate. -/
theorem periodDiscounted_full_first_factor (P : Params) (i : ℕ) (h1 : 1 ≤ i)
    (h2 : i ≤ P.periodsPerYear * P.timeHorizon) :
    periodDiscounted P (i - 1) =
      periodCashflow P (i - 1) /
        effectiveRate P.discountRate P.periodsPerYear ^ i := by
  unfold periodDiscounted
  rw [Nat.sub_add_cancel h1]

/-- Witness for C4 at a concrete parameter set and period 1. -/
theorem periodDiscounted_full_first_factor_witness :
    periodDiscounted ⟨1, 1, 100, 50, 5, 0, 1600000, 10⟩ 0 =
      periodCashflow ⟨1, 1, 100, 50, 5, 0, 1600000, 10⟩ 0 / effectiveRate 100 1 ^ 1 :=
  periodDiscounted_full_first_factor ⟨1, 1, 100, 50, 5, 0, 1600000, 10⟩ 1
    (by norm_num) (by norm_num)

/-- C2 (counterexample): at the notebook's default widget values, the Python return
value of `valuation` is `None` — the function body ends in print/plot calls with no
`return` statement — so the call does not return the claimed 4-tuple. -/
theorem valuation_return_counterexample :
    valuationReturnValue ⟨15, 4, 20, 0.5, 5, 1, 1600000000, 10⟩ = none := rfl

/-- C2 (amended): `valuation` returns no value (`None`); the three aggregate
scalars and the series exist only as printed/plotted observables. For every
parameter set with at least one period, the observable output consists of the
four plotted series together with the pre-horizon, post-horizon and total
aggregates; the return value is still `None`. -/
theorem valuation_prints_not_returns (P : Params)
    (h : 1 ≤ P.periodsPerYear * P.timeHorizon) (hr : 0 < P.discountRate) :
    valuationReturnValue P = none ∧
    valuation P = Except.ok
      { timeAxis := (List.range (numPeriods P)).map
          (fun i => (i : ℝ) / (P.periodsPerYear : ℝ))
        transactionCountSeries := (List.range (numPeriods P)).map
          (periodTransactionCount P)
        cashflowSeries := (List.range (numPeriods P)).map (periodCashflow P)
        discountedSeries := (List.range (numPeriods P)).map (periodDiscounted P)
        preHorizonValue := summedDiscounted P
        postHorizonValue := horizonValue P
        totalValue := summedDiscounted P + horizonValue P } :=
  ⟨rfl, valuation_ok P h hr⟩

/-- Witness for C2's amended theorem at a concrete parameter set. -/
theorem valuation_prints_not_returns_witness :
    valuationReturnValue ⟨10, 4, 20, 0.5, 5, 1, 1600000000, 10⟩ = none :=
  (valuation_prints_not_returns ⟨10, 4, 20, 0.5, 5, 1, 1600000000, 10⟩
    (by norm_num) (by norm_num)).1

/-- C3 (counterexample): `stakerFee = 0` lies outside the open interval (0,100),
yet `valuation` does not fail fast: it runs to completion with zero cashflows and
zero printed aggregates, raising no "invalid parameter" error. -/
theorem no_validation_counterexample :
    valuation ⟨1, 1, 100, 0, 5, 0, 240, 10⟩ =
      Except.ok ⟨[0], [120], [0], [0], 0, 0, 0⟩ := by
  have hhz : horizonValue ⟨1, 1, 100, 0, 5, 0, 240, 10⟩ = 0 := by
    rw [horizonValue_eval]
    norm_num
    exact roundHalfEven_zero
  have hsum : summedDiscounted ⟨1, 1, 100, 0, 5, 0, 240, 10⟩ = 0 := by
    unfold summedDiscounted
    rw [summedDiscountedExact_eval]
    norm_num
    exact roundHalfEven_zero
  rw [valuation_ok ⟨1, 1, 100, 0, 5, 0, 240, 10⟩ (by decide) (by norm_num)]
  have hr1 : List.range (numPeriods ⟨1, 1, 100, 0, 5, 0, 240, 10⟩) = [0] := by
    rw [show numPeriods ⟨1, 1, 100, 0, 5, 0, 240, 10⟩ = 1 from rfl]
    simp [List.range_succ]
  rw [hr1]
  simp only [List.map_singleton, periodTransactionCount_eval, periodCashflow_eval,
    periodDiscounted_eval]
  norm_num [hsum, hhz]

/-- C3 (amended): `valuation` performs no parameter validation and never raises a
descriptive "invalid parameter" error; invalid inputs instead surface as
low-level runtime exceptions at the statement that trips over them, or are
accepted silently. Concretely: `periodsPerYear = 0` raises `ZeroDivisionError`
at `1/periodsPerYear`; `timeHorizon = 0` with `periodsPerYear ≥ 1` raises
`IndexError` at `periodDiscounted[-1]`; `discountRate < -100` with
`periodsPerYear ≥ 2` raises `ValueError` when the NaN sum is converted by
`int`; `discountRate = -100` aborts at the same conversion (with
`OverflowError` or `ValueError` from the division by a zero effective rate);
and every parameter set with at least one period and a positive rate — in
particular any stakerFee outside (0,100) — runs to completion. -/
theorem valuation_no_validation (P : Params) :
    (P.periodsPerYear = 0 → valuation P = Except.error "ZeroDivisionError") ∧
    (1 ≤ P.periodsPerYear → numPeriods P = 0 →
      valuation P = Except.error "IndexError") ∧
    (1 ≤ numPeriods P → 1 + P.discountRate / 100 < 0 → 2 ≤ P.periodsPerYear →
      valuation P = Except.error "ValueError") ∧
    (1 ≤ numPeriods P → 1 + P.discountRate / 100 = 0 →
      succeeds (valuation P) = false) ∧
    (1 ≤ numPeriods P → 0 < P.discountRate →
      succeeds (valuation P) = true) := by
  refine ⟨?_, ?_, ?_, ?_, ?_⟩
  · intro h0
    unfold valuation
    rw [if_pos h0]
  · intro hp h0
    have hc : summedDiscountedChecked P = Except.ok (summedDiscounted P) := by
      unfold summedDiscountedChecked
      rw [if_neg (by rintro ⟨h1, -, -⟩; omega),
        if_neg (by rintro ⟨h1, -⟩; omega)]
    have hdh : discountedHorizon P = Except.error "IndexError" := by
      unfold discountedHorizon
      rw [if_pos h0]
    unfold valuation
    rw [if_neg (by omega), hc, hdh]
  · intro hn hb hp2
    have hc : summedDiscountedChecked P = Except.error "ValueError" := by
      unfold summedDiscountedChecked
      rw [if_pos ⟨hn, hb, hp2⟩]
    unfold valuation
    rw [if_neg (by omega), hc]
  · intro hn hb
    have hp : ¬P.periodsPerYear = 0 := by
      intro h0
      unfold numPeriods at hn
      rw [h0] at hn
      simp at hn
    unfold valuation
    rw [if_neg hp]
    unfold summedDiscountedChecked
    rw [if_neg (by rintro ⟨-, hlt, -⟩; linarith), if_pos ⟨hn, hb⟩]
    by_cases hsign : (∀ i ∈ Finset.range (numPeriods P), 0 < periodCashflow P i) ∨
        (∀ i ∈ Finset.range (numPeriods P), periodCashflow P i < 0)
    · rw [if_pos hsign]
      rfl
    · rw [if_neg hsign]
      rfl
  · intro hn hr
    rw [valuation_ok P hn hr]
    rfl

/-- Witness for C3's amended theorem: with periodsPerYear = 0 the run aborts with
the bare ZeroDivisionError from the very first line. -/
theorem valuation_no_validation_witness :
    valuation ⟨1, 0, 100, 50, 5, 0, 240, 10⟩ =
      Except.error "ZeroDivisionError" :=
  (valuation_no_validation ⟨1, 0, 100, 50, 5, 0, 240, 10⟩).1 rfl

/-- C6 (counterexample): at timeHorizon = periodsPerYear = 1, discountRate = 100,
stakerFee = 50, slope = 0, limit = 240, doubling avgTransactionValue from 10 to 20
moves the exact pre-horizon sum from 300 to 600, but the reported (rounded to the
nearest thousand) output moves from 0 to 1000, which is not double of 0. -/
theorem doubling_rounded_output_counterexample :
    summedDiscounted ⟨1, 1, 100, 50, 5, 0, 240, 20⟩ ≠
      2 * summedDiscounted ⟨1, 1, 100, 50, 5, 0, 240, 10⟩ := by
  have h1 : summedDiscounted ⟨1, 1, 100, 50, 5, 0, 240, 20⟩ = 1000 := by
    unfold summedDiscounted
    rw [summedDiscountedExact_eval,
      show ((240 : ℝ) / 2 * 20 * (50 / 100) / 2 / 1000) = 3 / 5 by norm_num,
      roundHalfEven_of_floor_gt (3 / 5) 0 (by norm_num [Int.floor_eq_iff])
        (by norm_num)]
    norm_num
  have h2 : summedDiscounted ⟨1, 1, 100, 50, 5, 0, 240, 10⟩ = 0 := by
    unfold summedDiscounted
    rw [summedDiscountedExact_eval,
      show ((240 : ℝ) / 2 * 10 * (50 / 100) / 2 / 1000) = 3 / 10 by norm_num,
      roundHalfEven_of_floor_lt (3 / 10) 0 (by norm_num [Int.floor_eq_iff])
        (by norm_num)]
    norm_num
  rw [h1, h2]
  norm_num

/-- C6 (amended): doubling avgTransactionValue exactly doubles every entry of
periodCashflow and periodDiscounted and exactly doubles the exact (unrounded)
aggregates — the pre-horizon sum, the closed-form tail, and their total. The
reported outputs, rounded to the nearest thousand, need not double exactly. -/
theorem doubling_avgTransactionValue (h p : ℕ) (r f mid slope limit v : ℝ) :
    (∀ i : ℕ, periodCashflow ⟨h, p, r, f, mid, slope, limit, 2 * v⟩ i =
        2 * periodCashflow ⟨h, p, r, f, mid, slope, limit, v⟩ i) ∧
    (∀ i : ℕ, periodDiscounted ⟨h, p, r, f, mid, slope, limit, 2 * v⟩ i =
        2 * periodDiscounted ⟨h, p, r, f, mid, slope, limit, v⟩ i) ∧
    summedDiscountedExact ⟨h, p, r, f, mid, slope, limit, 2 * v⟩ =
        2 * summedDiscountedExact ⟨h, p, r, f, mid, slope, limit, v⟩ ∧
    tailExact ⟨h, p, r, f, mid, slope, limit, 2 * v⟩ =
        2 * tailExact ⟨h, p, r, f, mid, slope, limit, v⟩ ∧
    summedDiscountedExact ⟨h, p, r, f, mid, slope, limit, 2 * v⟩ +
        tailExact ⟨h, p, r, f, mid, slope, limit, 2 * v⟩ =
      2 * (summedDiscountedExact ⟨h, p, r, f, mid, slope, limit, v⟩ +
        tailExact ⟨h, p, r, f, mid, slope, limit, v⟩) := by
  have hvol : ∀ i : ℕ, periodTransactionVolume ⟨h, p, r, f, mid, slope, limit, 2 * v⟩ i =
      2 * periodTransactionVolume ⟨h, p, r, f, mid, slope, limit, v⟩ i := by
    intro i
    unfold periodTransactionVolume transactionCount transactionValue average
    have hfun : ∀ t : ℝ, logistic t mid slope limit * (2 * v) =
        2 * (logistic t mid slope limit * v) := by
      intro t
      ring
    rw [intervalIntegral.integral_congr (g := fun t =>
        2 * (logistic t mid slope limit * v)) (fun t _ => hfun t)]
    exact intervalIntegral.integral_const_mul 2 _
  have hcash : ∀ i : ℕ, periodCashflow ⟨h, p, r, f, mid, slope, limit, 2 * v⟩ i =
      2 * periodCashflow ⟨h, p, r, f, mid, slope, limit, v⟩ i := by
    intro i
    unfold periodCashflow
    rw [hvol]
    ring
  have hdisc : ∀ i : ℕ, periodDiscounted ⟨h, p, r, f, mid, slope, limit, 2 * v⟩ i =
      2 * periodDiscounted ⟨h, p, r, f, mid, slope, limit, v⟩ i := by
    intro i
    unfold periodDiscounted
    rw [hcash]
    ring
  have hsum : summedDiscountedExact ⟨h, p, r, f, mid, slope, limit, 2 * v⟩ =
      2 * summedDiscountedExact ⟨h, p, r, f, mid, slope, limit, v⟩ := by
    unfold summedDiscountedExact
    rw [Finset.mul_sum]
    exact Finset.sum_congr rfl (fun i _ => hdisc i)
  have htail : tailExact ⟨h, p, r, f, mid, slope, limit, 2 * v⟩ =
      2 * tailExact ⟨h, p, r, f, mid, slope, limit, v⟩ := by
    unfold tailExact
    rw [show numPeriods ⟨h, p, r, f, mid, slope, limit, 2 * v⟩ = p * h from rfl,
      show numPeriods ⟨h, p, r, f, mid, slope, limit, v⟩ = p * h from rfl,
      hdisc (p * h - 1)]
    ring
  exact ⟨hcash, hdisc, hsum, htail, by rw [hsum, htail]; ring⟩

/-- C5: for every annual rate above -100 and every `periodsPerYear ≥ 1` (which
covers 1, 4, 12 and 52), the effective per-period rate raised to the
`periodsPerYear`-th power equals `1 + annualRate/100` exactly, and this single
effective rate is the one used in every period's discount exponent and in the
post-horizon tail formula. -/
theorem effectiveRate_annualization (r : ℝ) (p : ℕ) (hr : -100 < r) (hp : 1 ≤ p) :
    effectiveRate r p ^ p = 1 + r / 100 ∧
    (∀ P : Params, ∀ i : ℕ, periodDiscounted P i = periodCashflow P i /
        effectiveRate P.discountRate P.periodsPerYear ^ (i + 1)) ∧
    (∀ P : Params, horizonValue P =
      roundHalfEven (periodDiscounted P (numPeriods P - 1) /
        ((effectiveRate P.discountRate P.periodsPerYear - 1) * 1000)) * 1000) := by
  refine ⟨?_, fun P i => rfl, fun P => rfl⟩
  have hb : (0 : ℝ) < 1 + r / 100 := by linarith
  have hp0 : (p : ℝ) ≠ 0 := Nat.cast_ne_zero.mpr (by omega)
  unfold effectiveRate
  rw [← Real.rpow_natCast ((1 + r / 100) ^ ((1 : ℝ) / (p : ℝ))) p,
    ← Real.rpow_mul hb.le, one_div, inv_mul_cancel₀ hp0, Real.rpow_one]

/-- Witness for C5 at annual rate 20% with quarterly periods. -/
theorem effectiveRate_annualization_witness :
    effectiveRate 20 4 ^ (4 : ℕ) = 1 + 20 / 100 :=
  (effectiveRate_annualization 20 4 (by norm_num) (by norm_num)).1

/-- C8 (counterexample): with `limit = 0` — a valid parameter set per the data
model, which only requires the curve parameters to be real — every cash flow is
zero, so raising the discount rate from 10 to 20 leaves the pre-horizon sum of
discounted flows unchanged at 0: the sum is not strictly decreasing in the rate. -/
theorem rate_monotonicity_counterexample :
    summedDiscountedExact ⟨1, 1, 20, 50, 5, 1, 0, 10⟩ = 0 ∧
    summedDiscountedExact ⟨1, 1, 10, 50, 5, 1, 0, 10⟩ = 0 ∧
    ¬(summedDiscountedExact ⟨1, 1, 20, 50, 5, 1, 0, 10⟩ <
        summedDiscountedExact ⟨1, 1, 10, 50, 5, 1, 0, 10⟩) := by
  have h1 := summedDiscountedExact_limit_zero 1 1 20 50 5 1 10
  have h2 := summedDiscountedExact_limit_zero 1 1 10 50 5 1 10
  exact ⟨h1, h2, by rw [h1, h2]; exact lt_irrefl 0⟩

/-- C8 (amended): for every parameter set with at least one period, strictly
positive limit, staker fee and average transaction value, the pre-horizon sum of
discounted cash flows is strictly decreasing as the annual discount rate
increases (over positive rates), all other parameters held fixed. -/
theorem summed_strict_anti_in_rate (h p : ℕ) (hh : 1 ≤ h) (hp : 1 ≤ p)
    (f mid slope limit v : ℝ) (hf : 0 < f) (hl : 0 < limit) (hv : 0 < v)
    (r1 r2 : ℝ) (hr1 : 0 < r1) (hr12 : r1 < r2) :
    summedDiscountedExact ⟨h, p, r2, f, mid, slope, limit, v⟩ <
      summedDiscountedExact ⟨h, p, r1, f, mid, slope, limit, v⟩ := by
  have hd1 : 1 < effectiveRate r1 p := one_lt_effectiveRate r1 p hr1 hp
  have hd1pos : 0 < effectiveRate r1 p := lt_trans one_pos hd1
  have hd12 : effectiveRate r1 p < effectiveRate r2 p :=
    effectiveRate_strict_mono p hp r1 r2 (by linarith) hr12
  unfold summedDiscountedExact
  rw [show numPeriods ⟨h, p, r2, f, mid, slope, limit, v⟩ = p * h from rfl,
    show numPeriods ⟨h, p, r1, f, mid, slope, limit, v⟩ = p * h from rfl]
  apply Finset.sum_lt_sum_of_nonempty
  · rw [Finset.nonempty_range_iff]
    have := Nat.mul_pos hp hh
    omega
  · intro i _
    have hcash : periodCashflow ⟨h, p, r2, f, mid, slope, limit, v⟩ i =
        periodCashflow ⟨h, p, r1, f, mid, slope, limit, v⟩ i := rfl
    unfold periodDiscounted
    rw [hcash]
    apply div_lt_div_of_pos_left
    · exact periodCashflow_pos h p hp r1 f mid slope limit v hf hl hv i
    · exact pow_pos hd1pos _
    · exact pow_lt_pow_left₀ hd12 (le_of_lt hd1pos) (Nat.succ_ne_zero i)

/-- Witness for C8's amended theorem at a concrete pair of rates 10 < 20. -/
theorem summed_strict_anti_in_rate_witness :
    summedDiscountedExact ⟨1, 1, 20, 50, 5, 1, 1, 10⟩ <
      summedDiscountedExact ⟨1, 1, 10, 50, 5, 1, 1, 10⟩ :=
  summed_strict_anti_in_rate 1 1 (by norm_num) (by norm_num) 50 5 1 1 10
    (by norm_num) (by norm_num) (by norm_num) 10 20 (by norm_num) (by norm_num)

/-- C9 (counterexample): at timeHorizon = periodsPerYear = 1, discountRate = 100,
stakerFee = 50, slope = 0, limit = 240, avgTransactionValue = 10, the exact
pre-horizon sum and exact tail are each 300, so the printed total is 0 + 0 = 0,
while rounding the exact total 600 to the nearest thousand gives 1000: the total
output is not the exact total rounded to the nearest thousand. -/
theorem total_rounding_counterexample :
    summedDiscounted ⟨1, 1, 100, 50, 5, 0, 240, 10⟩ +
        horizonValue ⟨1, 1, 100, 50, 5, 0, 240, 10⟩ = 0 ∧
    roundHalfEven ((summedDiscountedExact ⟨1, 1, 100, 50, 5, 0, 240, 10⟩ +
        tailExact ⟨1, 1, 100, 50, 5, 0, 240, 10⟩) / 1000) * 1000 = 1000 ∧
    (0 : ℤ) ≠ 1000 := by
  refine ⟨?_, ?_, by decide⟩
  · have h1 : summedDiscounted ⟨1, 1, 100, 50, 5, 0, 240, 10⟩ = 0 := by
      unfold summedDiscounted
      rw [summedDiscountedExact_eval,
        show ((240 : ℝ) / 2 * 10 * (50 / 100) / 2 / 1000) = 3 / 10 by norm_num,
        roundHalfEven_of_floor_lt (3 / 10) 0 (by norm_num [Int.floor_eq_iff])
          (by norm_num)]
      norm_num
    have h2 : horizonValue ⟨1, 1, 100, 50, 5, 0, 240, 10⟩ = 0 := by
      rw [horizonValue_eval,
        show ((240 : ℝ) / 2 * 10 * (50 / 100) / 2 / 1000) = 3 / 10 by norm_num,
        roundHalfEven_of_floor_lt (3 / 10) 0 (by norm_num [Int.floor_eq_iff])
          (by norm_num)]
      norm_num
    rw [h1, h2]
    decide
  · rw [summedDiscountedExact_eval, tailExact_eval,
      show (((240 : ℝ) / 2 * 10 * (50 / 100) / 2 +
        (240 : ℝ) / 2 * 10 * (50 / 100) / 2) / 1000) = 3 / 5 by norm_num,
      roundHalfEven_of_floor_gt (3 / 5) 0 (by norm_num [Int.floor_eq_iff])
        (by norm_num)]
    norm_num

/-- C9 (amended): each of the three reported outputs is an integer multiple of
1000; the pre-horizon and post-horizon outputs are their exact values rounded to
the nearest thousand (within 500 of them), while the total is the sum of the two
rounded outputs — within 1000 of the exact total, but not necessarily the exact
total rounded to the nearest thousand. -/
theorem outputs_rounded_to_thousands (P : Params) :
    (1000 : ℤ) ∣ summedDiscounted P ∧
    (1000 : ℤ) ∣ horizonValue P ∧
    (1000 : ℤ) ∣ (summedDiscounted P + horizonValue P) ∧
    |((summedDiscounted P : ℤ) : ℝ) - summedDiscountedExact P| ≤ 500 ∧
    |((horizonValue P : ℤ) : ℝ) - tailExact P| ≤ 500 ∧
    |((summedDiscounted P + horizonValue P : ℤ) : ℝ) -
        (summedDiscountedExact P + tailExact P)| ≤ 1000 := by
  have hd1 : (1000 : ℤ) ∣ summedDiscounted P := Dvd.intro_left _ rfl
  have hd2 : (1000 : ℤ) ∣ horizonValue P := by
    rw [horizonValue_eq_round_tailExact]
    exact Dvd.intro_left _ rfl
  have hb1 : |((summedDiscounted P : ℤ) : ℝ) - summedDiscountedExact P| ≤ 500 :=
    abs_round_thousand_sub (summedDiscountedExact P)
  have hb2 : |((horizonValue P : ℤ) : ℝ) - tailExact P| ≤ 500 := by
    rw [horizonValue_eq_round_tailExact]
    exact abs_round_thousand_sub (tailExact P)
  refine ⟨hd1, hd2, dvd_add hd1 hd2, hb1, hb2, ?_⟩
  have htri : ((summedDiscounted P + horizonValue P : ℤ) : ℝ) -
      (summedDiscountedExact P + tailExact P) =
      (((summedDiscounted P : ℤ) : ℝ) - summedDiscountedExact P) +
        (((horizonValue P : ℤ) : ℝ) - tailExact P) := by
    push_cast
    ring
  rw [htri]
  calc |(((summedDiscounted P : ℤ) : ℝ) - summedDiscountedExact P) +
        (((horizonValue P : ℤ) : ℝ) - tailExact P)|
      ≤ |((summedDiscounted P : ℤ) : ℝ) - summedDiscountedExact P| +
        |((horizonValue P : ℤ) : ℝ) - tailExact P| := abs_add _ _
    _ ≤ 1000 := by linarith

/-- C10: with limit ≥ 0, stakerFee ≥ 0, avgTransactionValue ≥ 0 and a positive
annual discount rate, every entry of periodTransactionCount, periodCashflow and
periodDiscounted is non-negative, and consequently the pre-horizon sum, the
post-horizon tail and the total valuation (exact and as reported) are all
non-negative. -/
theorem model_nonneg (h p : ℕ) (hp : 1 ≤ p) (r f mid slope limit v : ℝ)
    (hl : 0 ≤ limit) (hf : 0 ≤ f) (hv : 0 ≤ v) (hr : 0 < r) :
    (∀ i : ℕ, 0 ≤ periodTransactionCount ⟨h, p, r, f, mid, slope, limit, v⟩ i) ∧
    (∀ i : ℕ, 0 ≤ periodCashflow ⟨h, p, r, f, mid, slope, limit, v⟩ i) ∧
    (∀ i : ℕ, 0 ≤ periodDiscounted ⟨h, p, r, f, mid, slope, limit, v⟩ i) ∧
    0 ≤ summedDiscountedExact ⟨h, p, r, f, mid, slope, limit, v⟩ ∧
    0 ≤ tailExact ⟨h, p, r, f, mid, slope, limit, v⟩ ∧
    0 ≤ summedDiscountedExact ⟨h, p, r, f, mid, slope, limit, v⟩ +
        tailExact ⟨h, p, r, f, mid, slope, limit, v⟩ ∧
    0 ≤ summedDiscounted ⟨h, p, r, f, mid, slope, limit, v⟩ ∧
    0 ≤ horizonValue ⟨h, p, r, f, mid, slope, limit, v⟩ ∧
    0 ≤ summedDiscounted ⟨h, p, r, f, mid, slope, limit, v⟩ +
        horizonValue ⟨h, p, r, f, mid, slope, limit, v⟩ := by
  have hp0 : (0 : ℝ) < (p : ℝ) := by
    exact_mod_cast Nat.lt_of_lt_of_le Nat.zero_lt_one hp
  have hab : ∀ i : ℕ, ((i : ℝ) / (p : ℝ)) ≤ (((i : ℝ) + 1) / (p : ℝ)) := by
    intro i
    rw [div_le_div_iff_of_pos_right hp0]
    linarith
  have hcount : ∀ i : ℕ,
      0 ≤ periodTransactionCount ⟨h, p, r, f, mid, slope, limit, v⟩ i := by
    intro i
    unfold periodTransactionCount transactionCount average periodStartEnd
    exact intervalIntegral.integral_nonneg (hab i)
      (fun u _ => logistic_nonneg u mid slope limit hl)
  have hvol : ∀ i : ℕ,
      0 ≤ periodTransactionVolume ⟨h, p, r, f, mid, slope, limit, v⟩ i := by
    intro i
    unfold periodTransactionVolume transactionCount transactionValue average
      periodStartEnd
    exact intervalIntegral.integral_nonneg (hab i)
      (fun u _ => mul_nonneg (logistic_nonneg u mid slope limit hl) hv)
  have hcash : ∀ i : ℕ,
      0 ≤ periodCashflow ⟨h, p, r, f, mid, slope, limit, v⟩ i := by
    intro i
    unfold periodCashflow
    exact mul_nonneg (hvol i) (by positivity)
  have hd0 : 0 < effectiveRate r p := effectiveRate_pos r p (by linarith)
  have hd1 : 1 < effectiveRate r p := one_lt_effectiveRate r p hr hp
  have hdisc : ∀ i : ℕ,
      0 ≤ periodDiscounted ⟨h, p, r, f, mid, slope, limit, v⟩ i := by
    intro i
    unfold periodDiscounted
    exact div_nonneg (hcash i) (pow_nonneg hd0.le _)
  have hsum : 0 ≤ summedDiscountedExact ⟨h, p, r, f, mid, slope, limit, v⟩ := by
    unfold summedDiscountedExact
    exact Finset.sum_nonneg (fun i _ => hdisc i)
  have htail : 0 ≤ tailExact ⟨h, p, r, f, mid, slope, limit, v⟩ := by
    unfold tailExact
    exact div_nonneg (hdisc _) (by linarith)
  have hrep1 : 0 ≤ summedDiscounted ⟨h, p, r, f, mid, slope, limit, v⟩ := by
    unfold summedDiscounted
    exact mul_nonneg
      (roundHalfEven_nonneg _ (div_nonneg hsum (by norm_num))) (by norm_num)
  have hrep2 : 0 ≤ horizonValue ⟨h, p, r, f, mid, slope, limit, v⟩ := by
    rw [horizonValue_eq_round_tailExact]
    exact mul_nonneg
      (roundHalfEven_nonneg _ (div_nonneg htail (by norm_num))) (by norm_num)
  exact ⟨hcount, hcash, hdisc, hsum, htail, by linarith, hrep1, hrep2, by linarith⟩

/-- Witness for C10 at a concrete parameter set. -/
theorem model_nonneg_witness :
    0 ≤ summedDiscountedExact ⟨1, 1, 100, 50, 5, 0, 240, 10⟩ +
        tailExact ⟨1, 1, 100, 50, 5, 0, 240, 10⟩ :=
  (model_nonneg 1 1 (by norm_num) 100 50 5 0 240 10
    (by norm_num) (by norm_num) (by norm_num) (by norm_num)).2.2.2.2.2.1

end EightPay
